import Mathlib

/-!
Shallow embedding of `src/ConversationManager.js` from the
openai-conversation-manager repository (classes `ConversationManager` and
`Logger`), together with theorems checking the natural-language
specification against it.

Conventions:
* JS strings are Lean `String`s, JS numbers used as token counts are `Nat`
  (differences that may go negative are taken in `Int`).
* The message array `this.messages` is a `List Message`.
* Filesystem state used by `Logger` is a map from file key (userId) to the
  stored JSON document, modelled as `String → Option Json` where `Json` is
  an abstract syntax tree of the JSON values `JSON.stringify` writes.
* Fallible operations return `Except`.

Every definition is translated from the source file; definitions whose
name starts with `spec` restate the wording of the specification and are
used only on the specification side of refinement comparisons.
-/

namespace ConvMgr

/-- Message roles used by the manager (`"system"`, `"user"`, `"assistant"`). -/
inductive Role where
  | system
  | user
  | assistant
deriving DecidableEq, Repr

/-- A message as stored in `this.messages`: `{role, content, timestamp}`,
the timestamp being absent on messages pushed by `setSystem` /
`setDefaultSystem` and present on messages pushed by `addMessage`. -/
structure Message where
  role : Role
  content : String
  timestamp : Option String := none
deriving DecidableEq, Repr

/-- Returns `true` on the characters matched by the JavaScript regex class `\s`
(ASCII whitespace, NBSP, the Unicode space separators, line and paragraph
separators, and the BOM). -/
def isJsWhitespace (c : Char) : Bool :=
  c == ' ' || c == Char.ofNat 9 || c == Char.ofNat 10 || c == Char.ofNat 11 ||
  c == Char.ofNat 12 || c == Char.ofNat 13 || c == Char.ofNat 0xA0 ||
  c == Char.ofNat 0x1680 || (0x2000 ≤ c.toNat && c.toNat ≤ 0x200A) ||
  c == Char.ofNat 0x2028 || c == Char.ofNat 0x2029 || c == Char.ofNat 0x202F ||
  c == Char.ofNat 0x205F || c == Char.ofNat 0x3000 || c == Char.ofNat 0xFEFF

/-- Replace every maximal run of whitespace by a single space.  The flag
records whether the previous character belonged to a whitespace run.  This
is the first half of the JS `text.split(/\s+/)`: after collapsing, the
separators of the regex split are exactly the single spaces. -/
def collapseWSAux (prevWS : Bool) : List Char → List Char
  | [] => []
  | c :: cs =>
    if isJsWhitespace c then
      (if prevWS then collapseWSAux true cs else ' ' :: collapseWSAux true cs)
    else
      c :: collapseWSAux false cs

/-- Split a character list at every single space, keeping empty fields,
accumulating the current field in `cur` (reversed). -/
def splitOnSpaceAux (cur : List Char) : List Char → List String
  | [] => [String.mk cur.reverse]
  | c :: cs =>
    if c == ' ' then String.mk cur.reverse :: splitOnSpaceAux [] cs
    else splitOnSpaceAux (c :: cur) cs

/-- JS `s.split(/\s+/)`: fields between maximal whitespace runs, with an
empty leading field when the string starts with whitespace, an empty
trailing field when it ends with whitespace, and `[""]` on the empty
string. -/
def jsSplitWS (s : String) : List String :=
  splitOnSpaceAux [] (collapseWSAux false s.data)

/-- Function `getTokenCount(text)` from the source: `text.split(/\s+/).length`. -/
def getTokenCount (text : String) : Nat :=
  (jsSplitWS text).length

/-- Function `getTotalTokens()` from the source:
`this.messages.reduce((count, msg) => count + this.getTokenCount(msg.content), 0)`. -/
def getTotalTokens (msgs : List Message) : Nat :=
  msgs.foldl (fun count msg => count + getTokenCount msg.content) 0

/-- The `while` loop of `trimHistory`:
`while (this.getTotalTokens() > this.conversationMaxTokens && this.messages.length > 0) this.messages.shift()`. -/
def trimLoop (maxT : Nat) : List Message → List Message
  | [] => []
  | m :: ms =>
    if getTotalTokens (m :: ms) > maxT then trimLoop maxT ms else m :: ms

/-- Function `trimHistory()` from the source: when the first message has role
`system` it is sliced off, the rest is trimmed by `trimLoop` (whose total
therefore does not include the system message), and the system message is
unshifted back; otherwise the whole list is trimmed by `trimLoop`. -/
def trimHistory (maxT : Nat) (msgs : List Message) : List Message :=
  match msgs with
  | m :: rest =>
    if m.role = Role.system then m :: trimLoop maxT rest
    else trimLoop maxT (m :: rest)
  | [] => []

/-- Specification-side definition, following the words of the spec only:
the number of whitespace-delimited words of a text, i.e. the number of
maximal nonempty runs of non-whitespace characters.  The flag records
whether the previous character was inside a word. -/
def specCountWordsAux (prevInWord : Bool) : List Char → Nat
  | [] => 0
  | c :: cs =>
    if isJsWhitespace c then specCountWordsAux false cs
    else (if prevInWord then 0 else 1) + specCountWordsAux true cs

/-- Specification-side word count of a string. -/
def specWordCount (s : String) : Nat :=
  specCountWordsAux false s.data

/-- Returns `true` exactly on messages with `msg.role === "system"`. -/
def isSystemMsg (m : Message) : Bool :=
  decide (m.role = Role.system)

/-- The part of `ConversationManager` state that the budget, trimming and
request logic reads and writes: `this.messages`,
`this.conversationMaxTokens` and `this.responseTokens`.  (`temperature`,
`model`, the logger and the id fields do not influence these operations.) -/
structure MgrState where
  messages : List Message
  conversationMaxTokens : Nat
  responseTokens : Nat
deriving DecidableEq, Repr

/-- Function `addMessage(content, role)` from the source: push
`{role, content, timestamp}` and run `trimHistory`.  The source performs
no validation of `content`. -/
def addMessage (st : MgrState) (content : String) (role : Role)
    (timestamp : String) : MgrState :=
  { st with
    messages :=
      trimHistory st.conversationMaxTokens
        (st.messages ++ [{ role := role, content := content,
                           timestamp := some timestamp }]) }

/-- The effect of `setSystem(mode, options)` on the message list, common to
all three modes: when `this.systemSet` is true, messages with role
`system` are filtered out first; then `{role: "system", content: agentPrompt}`
is pushed at the end of the list.  The resolution of `agentPrompt` and of
the numeric settings (from options, config.json or a prompt file) is
passed in as the already-resolved `prompt`. -/
def setSystem (systemSet : Bool) (msgs : List Message) (prompt : String) :
    List Message :=
  (if systemSet then msgs.filter (fun m => !isSystemMsg m) else msgs) ++
    [{ role := Role.system, content := prompt, timestamp := none }]

/-- The duplicate-system collapse at the start of `callAPI()`: when more
than one message has role `system`, the list becomes the first such
message followed by all non-system messages in order; otherwise the list
is unchanged. -/
def collapseSystem (msgs : List Message) : List Message :=
  match msgs.filter (fun m => isSystemMsg m) with
  | s :: _ :: _ => s :: msgs.filter (fun m => !isSystemMsg m)
  | _ => msgs

/-- Errors thrown by `callAPI()`: the budget error thrown before
delegating, and an opaque error propagated from `apiHandler.callAPI`. -/
inductive CMError where
  | budgetExceeded
  | apiError (message : String)
deriving DecidableEq, Repr

/-- The quantity `Math.min(this.responseTokens, this.conversationMaxTokens - this.getTotalTokens())`
over the given message list, in `Int` because the difference may be
negative. -/
def responseLimit (st : MgrState) (msgs : List Message) : Int :=
  min (st.responseTokens : Int)
    ((st.conversationMaxTokens : Int) - (getTotalTokens msgs : Int))

deriving instance DecidableEq for Except

/-- Result of one `callAPI()` run: the final state, the returned value or
thrown error, and whether `apiHandler.callAPI` was reached. -/
structure CallAPIResult where
  state : MgrState
  result : Except CMError String
  apiCalled : Bool
deriving DecidableEq, Repr

/-- Function `callAPI()` from the source: collapse duplicate system messages,
compute the response limit, throw the budget error before any outbound
call when the limit is not positive, otherwise delegate to the API
handler (its outcome is the `api` argument; a timestamp for the appended
assistant message is the `timestamp` argument).  On success the response
is appended via `addMessage(response, "assistant")`; on failure the
handler error propagates unchanged. -/
def callAPI (st : MgrState) (timestamp : String)
    (api : Except String String) : CallAPIResult :=
  if responseLimit st (collapseSystem st.messages) ≤ 0 then
    { state := { st with messages := collapseSystem st.messages },
      result := Except.error CMError.budgetExceeded, apiCalled := false }
  else
    match api with
    | Except.error e =>
      { state := { st with messages := collapseSystem st.messages },
        result := Except.error (CMError.apiError e), apiCalled := true }
    | Except.ok text =>
      { state := addMessage { st with messages := collapseSystem st.messages }
          text Role.assistant timestamp,
        result := Except.ok text, apiCalled := true }

/-- The digits of a character list read as a decimal number: the longest
digit prefix folded into a `Nat`, `none` when there is no leading digit. -/
def digitsPrefixVal (cs : List Char) : Option Nat :=
  match cs.takeWhile Char.isDigit with
  | [] => none
  | ds => some (ds.foldl (fun a c => a * 10 + (c.toNat - 48)) 0)

/-- JS `parseInt(s, 10)`: skip leading whitespace, read an optional sign
and then the longest digit prefix, ignoring anything after it; `none`
stands for `NaN` (no digit found). -/
def jsParseInt (s : String) : Option Int :=
  match s.data.dropWhile isJsWhitespace with
  | '-' :: rest => (digitsPrefixVal rest).map (fun n => -(n : Int))
  | '+' :: rest => (digitsPrefixVal rest).map (fun n => (n : Int))
  | cs => (digitsPrefixVal cs).map (fun n => (n : Int))

/-- JS `Math.max(...)` over a non-empty spread of values, `none` standing
for `NaN`, which propagates through `Math.max`.  The empty case is
unreachable in the source (guarded by `conversations.length > 0`). -/
def jsMaxList : List (Option Int) → Option Int
  | [] => none
  | x :: xs =>
    xs.foldl
      (fun acc y =>
        match acc, y with
        | some a, some b => some (max a b)
        | _, _ => none)
      x

/-- A stored conversation entry: `{conversationId, name, timestamp, messages}`
as built by `saveHistory`. -/
structure Conversation where
  conversationId : String
  name : String
  timestamp : String
  messages : List Message
deriving DecidableEq, Repr

/-- The per-user document `{userId, totalConversations, conversations}`. -/
structure UserRecord where
  userId : String
  totalConversations : Int
  conversations : List Conversation
deriving DecidableEq, Repr

/-- Function `Logger.generateConversationId(userData)` from the source:
`Math.max(...userData.conversations.map(c => parseInt(c.conversationId, 10)))`
when conversations exist, else `0`; then `(highestId + 1).toString()`.
`"NaN"` is what `(NaN + 1).toString()` yields when some id fails to parse. -/
def generateConversationId (userData : UserRecord) : String :=
  let highestId : Option Int :=
    if userData.conversations.length > 0 then
      jsMaxList (userData.conversations.map
        (fun convo => jsParseInt convo.conversationId))
    else some 0
  match highestId with
  | some n => toString (n + 1)
  | none => "NaN"

/-- Abstract syntax of the JSON documents written by `JSON.stringify` and
read back by `JSON.parse` in `Logger.saveUserData` / `Logger.loadUserData`.
The string rendering and re-parsing performed by the JSON library is an
external collaborator; what the source controls is which fields are
written, and that is captured here. -/
inductive Json where
  | str (s : String)
  | num (n : Int)
  | arr (elems : List Json)
  | obj (fields : List (String × Json))
deriving Repr

/-- Role names as serialized: `"system"`, `"user"`, `"assistant"`. -/
def roleToString : Role → String
  | Role.system => "system"
  | Role.user => "user"
  | Role.assistant => "assistant"

/-- Inverse reading of a serialized role name. -/
def roleOfString (s : String) : Option Role :=
  if s = "system" then some Role.system
  else if s = "user" then some Role.user
  else if s = "assistant" then some Role.assistant
  else none

/-- Serialization of one message; `JSON.stringify` drops the `timestamp`
key when the field is absent. -/
def encodeMessage (m : Message) : Json :=
  Json.obj
    ([("role", Json.str (roleToString m.role)),
      ("content", Json.str m.content)] ++
      (match m.timestamp with
       | some t => [("timestamp", Json.str t)]
       | none => []))

/-- Serialization of one conversation entry. -/
def encodeConversation (c : Conversation) : Json :=
  Json.obj
    [("conversationId", Json.str c.conversationId),
     ("name", Json.str c.name),
     ("timestamp", Json.str c.timestamp),
     ("messages", Json.arr (c.messages.map encodeMessage))]

/-- Serialization of the whole per-user document. -/
def encodeUserRecord (u : UserRecord) : Json :=
  Json.obj
    [("userId", Json.str u.userId),
     ("totalConversations", Json.num u.totalConversations),
     ("conversations", Json.arr (u.conversations.map encodeConversation))]

/-- Field lookup in a parsed JSON object. -/
def jGet (fields : List (String × Json)) (key : String) : Option Json :=
  (fields.find? (fun p => decide (p.1 = key))).map (fun p => p.2)

/-- Read a JSON string value. -/
def asStr : Json → Option String
  | Json.str s => some s
  | _ => none

/-- Read a JSON number value. -/
def asNum : Json → Option Int
  | Json.num n => some n
  | _ => none

/-- Decode every element of a JSON array, failing if any element fails. -/
def decodeList {α : Type} (f : Json → Option α) : List Json → Option (List α)
  | [] => some []
  | j :: js =>
    match f j, decodeList f js with
    | some a, some l => some (a :: l)
    | _, _ => none

/-- Reading a message back out of the parsed document. -/
def decodeMessage (j : Json) : Option Message :=
  match j with
  | Json.obj fs =>
    match (jGet fs "role").bind asStr, (jGet fs "content").bind asStr with
    | some r, some c =>
      match roleOfString r with
      | some role =>
        some { role := role, content := c,
               timestamp := (jGet fs "timestamp").bind asStr }
      | none => none
    | _, _ => none
  | _ => none

/-- Reading a conversation entry back out of the parsed document. -/
def decodeConversation (j : Json) : Option Conversation :=
  match j with
  | Json.obj fs =>
    match (jGet fs "conversationId").bind asStr, (jGet fs "name").bind asStr,
        (jGet fs "timestamp").bind asStr, jGet fs "messages" with
    | some cid, some name, some ts, some (Json.arr ms) =>
      match decodeList decodeMessage ms with
      | some msgs =>
        some { conversationId := cid, name := name, timestamp := ts,
               messages := msgs }
      | none => none
    | _, _, _, _ => none
  | _ => none

/-- Reading the per-user document back, with the
`data.conversations = data.conversations || []` defaulting that
`loadUserData` applies when the key is missing. -/
def decodeUserRecord (j : Json) : Option UserRecord :=
  match j with
  | Json.obj fs =>
    match (jGet fs "userId").bind asStr,
        (jGet fs "totalConversations").bind asNum with
    | some uid, some total =>
      match jGet fs "conversations" with
      | none => some { userId := uid, totalConversations := total,
                       conversations := [] }
      | some (Json.arr cs) =>
        match decodeList decodeConversation cs with
        | some convos =>
          some { userId := uid, totalConversations := total,
                 conversations := convos }
        | none => none
      | some _ => none
    | _, _ => none
  | _ => none

/-- The persisted state: one JSON document per file key
`logPath/userId.json`, indexed here by `userId`. -/
def Store : Type := String → Option Json

/-- Function `Logger.saveUserData(userId, userData)`: write the serialized document
to the file for this user. -/
def saveUserData (store : Store) (userId : String) (userData : UserRecord) :
    Store :=
  fun uid => if uid = userId then some (encodeUserRecord userData) else store uid

/-- Function `Logger.loadUserData(userId)`: parse the stored document and default
the conversations array; a missing or unreadable file degrades to
`{userId, totalConversations: 0, conversations: []}`. -/
def loadUserData (store : Store) (userId : String) : UserRecord :=
  match store userId with
  | some j =>
    match decodeUserRecord j with
    | some r => r
    | none => { userId := userId, totalConversations := 0, conversations := [] }
  | none => { userId := userId, totalConversations := 0, conversations := [] }

/-- Specification-side definition, following the words of the spec only:
the maximum of a list of integers, `0` when the list is empty. -/
def specMaxIds : List Int → Int
  | [] => 0
  | n :: t => t.foldl max n

/-- A system message whose content estimates to 10 tokens. -/
def exSys10 : Message :=
  { role := Role.system, content := "a b c d e f g h i j" }

/-- A user message whose content estimates to 5 tokens. -/
def exUser5 : Message :=
  { role := Role.user, content := "p q r s t" }

/-- A two-word user message. -/
def exUserAB : Message :=
  { role := Role.user, content := "a b" }

/-- A two-word system message, used at a position other than 0. -/
def exSysCD : Message :=
  { role := Role.system, content := "c d" }

/-- A one-word user message. -/
def exUserE : Message :=
  { role := Role.user, content := "e" }

/-- A one-word system message. -/
def exSysA : Message :=
  { role := Role.system, content := "A" }

/-- A second one-word system message, for duplicate-system inputs. -/
def exSysB : Message :=
  { role := Role.system, content := "B" }

/-- A one-word user message. -/
def exUserB : Message :=
  { role := Role.user, content := "Q" }

/-- A one-word assistant message. -/
def exAsstC : Message :=
  { role := Role.assistant, content := "C" }

/-- The manager state right after construction with the built-in default
prompt and the fallback defaults of `loadConfig`
(`conversationMaxTokens: 500`, `responseTokens: 100`). -/
def exSt0 : MgrState :=
  { messages := [{ role := Role.system,
                   content := "You are a helpful assistant." }],
    conversationMaxTokens := 500, responseTokens := 100 }

/-- The character list of `n` one-letter words separated by single
spaces, whose token estimate is `n`. -/
def wWords : Nat → List Char
  | 0 => []
  | 1 => ['w']
  | Nat.succ (Nat.succ m) => 'w' :: ' ' :: wWords (Nat.succ m)

/-- A state with `conversationMaxTokens = 1000`, `responseTokens = 100`
and a current total of 950 estimated tokens. -/
def exSt950 : MgrState :=
  { messages := [{ role := Role.user, content := String.mk (wWords 950) }],
    conversationMaxTokens := 1000, responseTokens := 100 }

/-- A state with `conversationMaxTokens = 1000`, `responseTokens = 100`
and a current total of 1000 estimated tokens. -/
def exSt1000 : MgrState :=
  { messages := [{ role := Role.user, content := String.mk (wWords 1000) }],
    conversationMaxTokens := 1000, responseTokens := 100 }

/-- A state whose message list holds two system messages, with ample
budget. -/
def exStDup : MgrState :=
  { messages := [exSysA, exSysB, exUserB],
    conversationMaxTokens := 100, responseTokens := 10 }

/-- A message list with duplicate system messages interleaved with other
roles. -/
def exDupList : List Message :=
  [exSysA, exUserB, exSysB, exAsstC]

/-- A user record with conversations `"1"` and `"2"`. -/
def exRec12 : UserRecord :=
  { userId := "u", totalConversations := 2,
    conversations :=
      [{ conversationId := "1", name := "c1", timestamp := "t1", messages := [] },
       { conversationId := "2", name := "c2", timestamp := "t2", messages := [] }] }

/-- A user record with no conversations. -/
def exRecEmpty : UserRecord :=
  { userId := "u", totalConversations := 0, conversations := [] }

/-- Proof-side helper: `true` when a character list is nonempty and its
last character is not whitespace. -/
def endsNonWSB : List Char → Bool
  | [] => false
  | [c] => !isJsWhitespace c
  | _ :: c :: cs => endsNonWSB (c :: cs)

/-- Proof-side helper: `true` when a character list is nonempty and its
first character is not whitespace. -/
def headNonWSB : List Char → Bool
  | [] => false
  | c :: _ => !isJsWhitespace c

end ConvMgr

namespace ConvMgr

theorem trimLoop_isSuffix (maxT : Nat) :
    ∀ l : List Message, (trimLoop maxT l).IsSuffix l := by
  intro l
  induction l with
  | nil => simp [trimLoop]
  | cons m ms ih =>
    rw [trimLoop]
    by_cases h : getTotalTokens (m :: ms) > maxT
    · simp only [h, if_true]
      exact ih.trans (List.suffix_cons m ms)
    · simp [h]

theorem trimLoop_budget (maxT : Nat) :
    ∀ l : List Message,
      getTotalTokens (trimLoop maxT l) ≤ maxT ∨ trimLoop maxT l = [] := by
  intro l
  induction l with
  | nil => exact Or.inr rfl
  | cons m ms ih =>
    rw [trimLoop]
    by_cases h : getTotalTokens (m :: ms) > maxT
    · simpa [h] using ih
    · left
      simpa [h] using Nat.le_of_not_lt h

/-- Claim C1 (amended): for a message list whose first element is a system
message, `trimHistory` keeps the message at index 0 in place, removes only
the oldest remaining message after index 0 at each step (the trimmed tail
is a suffix of the original tail), and terminates in a state where either
the total estimated tokens of the messages after index 0 — the system
message is excluded from the comparison by the code, which slices it off
before the loop — is at most `conversationMaxTokens`, or no messages
besides the system message remain. -/
theorem c1_trim_system_pinned (maxT : Nat) (m : Message)
    (rest : List Message) (h : m.role = Role.system) :
    trimHistory maxT (m :: rest) = m :: trimLoop maxT rest ∧
    (trimLoop maxT rest).IsSuffix rest ∧
    (getTotalTokens (trimLoop maxT rest) ≤ maxT ∨ trimLoop maxT rest = []) := by
  refine ⟨?_, trimLoop_isSuffix maxT rest, trimLoop_budget maxT rest⟩
  simp [trimHistory, h]

theorem c1_trim_system_pinned_witness :
    exSys10.role = Role.system ∧
    (trimHistory 12 [exSys10, exUser5] = exSys10 :: trimLoop 12 [exUser5] ∧
      (trimLoop 12 [exUser5]).IsSuffix [exUser5] ∧
      (getTotalTokens (trimLoop 12 [exUser5]) ≤ 12 ∨
        trimLoop 12 [exUser5] = [])) :=
  ⟨by decide, c1_trim_system_pinned 12 exSys10 [exUser5] (by decide)⟩

/-- Claim C1, as stated, is false: with budget 12, a 10-token system
message at index 0 and a 5-token user message, `trimHistory` stops at once
because the loop total omits the system message, leaving a list whose
total estimated tokens (system message included, as the claim counts
them) is 15 > 12 while a non-system message still remains. -/
theorem c1_counterexample :
    trimHistory 12 [exSys10, exUser5] = [exSys10, exUser5] ∧
    getTotalTokens (trimHistory 12 [exSys10, exUser5]) = 15 ∧
    ¬(getTotalTokens (trimHistory 12 [exSys10, exUser5]) ≤ 12 ∨
      (trimHistory 12 [exSys10, exUser5]).filter (fun m => !isSystemMsg m) = []) := by
  decide

theorem callAPI_eq_of_nonpos (st : MgrState) (ts : String)
    (api : Except String String)
    (h : responseLimit st (collapseSystem st.messages) ≤ 0) :
    callAPI st ts api =
      { state := { st with messages := collapseSystem st.messages },
        result := Except.error CMError.budgetExceeded, apiCalled := false } := by
  unfold callAPI
  rw [if_pos h]

theorem callAPI_called_of_pos (st : MgrState) (ts : String)
    (api : Except String String)
    (h : ¬ responseLimit st (collapseSystem st.messages) ≤ 0) :
    (callAPI st ts api).apiCalled = true := by
  unfold callAPI
  rw [if_neg h]
  cases api <;> rfl

set_option maxRecDepth 100000 in
/-- Claim C4: `callAPI` computes
`responseLimit = min(responseTokens, conversationMaxTokens - totalTokens)`
over the message list as it stands after the duplicate-system collapse,
and throws the budget error with no outbound call exactly when that limit
is not positive; with `conversationMaxTokens = 1000`,
`responseTokens = 100` and a current total of 950 the limit is 50 and the
call proceeds, while with a current total of 1000 it fails before any
outbound call. -/
theorem c4_budget_gate :
    (∀ (st : MgrState) (ts : String) (api : Except String String),
      ((callAPI st ts api).result = Except.error CMError.budgetExceeded ∧
        (callAPI st ts api).apiCalled = false) ↔
      responseLimit st (collapseSystem st.messages) ≤ 0) ∧
    responseLimit exSt950 (collapseSystem exSt950.messages) = 50 ∧
    (∀ api, (callAPI exSt950 "T" api).apiCalled = true) ∧
    (∀ api, (callAPI exSt1000 "T" api).result =
        Except.error CMError.budgetExceeded ∧
      (callAPI exSt1000 "T" api).apiCalled = false) := by
  refine ⟨?_, ?_, ?_, ?_⟩
  · intro st ts api
    constructor
    · rintro ⟨hres, hcalled⟩
      by_contra hlim
      rw [callAPI_called_of_pos st ts api hlim] at hcalled
      exact Bool.noConfusion hcalled
    · intro hlim
      rw [callAPI_eq_of_nonpos st ts api hlim]
      exact ⟨rfl, rfl⟩
  · decide
  · intro api
    exact callAPI_called_of_pos exSt950 "T" api (by decide)
  · intro api
    rw [callAPI_eq_of_nonpos exSt1000 "T" api (by decide)]
    exact ⟨rfl, rfl⟩

/-- Claim C6, as stated, is false: with two system messages in the list
and ample budget, a failing API call propagates the collaborator error
unchanged, but the message list after the failure is the collapsed list
`[exSysA, exUserB]`, not the list `[exSysA, exSysB, exUserB]` it held
before the completion request was attempted. -/
theorem c6_counterexample :
    responseLimit exStDup (collapseSystem exStDup.messages) > 0 ∧
    (callAPI exStDup "T" (Except.error "boom")).result =
      Except.error (CMError.apiError "boom") ∧
    (callAPI exStDup "T" (Except.error "boom")).state.messages ≠
      exStDup.messages := by
  decide

/-- Claim C6 (amended): when the API handler fails (on the path where the
budget check passed, so the handler was actually invoked), its error
propagates to the caller unchanged, and the message list is exactly the
duplicate-system-collapsed form of the list held before the request — the
collapse being the only mutation `callAPI` performs before delegating; in
particular no assistant message is appended on failure. -/
theorem c6_failure_keeps_collapsed_list (st : MgrState) (ts : String)
    (e : String)
    (h : ¬ responseLimit st (collapseSystem st.messages) ≤ 0) :
    (callAPI st ts (Except.error e)).result =
      Except.error (CMError.apiError e) ∧
    (callAPI st ts (Except.error e)).state.messages =
      collapseSystem st.messages ∧
    (callAPI st ts (Except.error e)).apiCalled = true := by
  unfold callAPI
  rw [if_neg h]
  exact ⟨rfl, rfl, rfl⟩

theorem c6_failure_keeps_collapsed_list_witness :
    (¬ responseLimit exStDup (collapseSystem exStDup.messages) ≤ 0) ∧
    ((callAPI exStDup "T" (Except.error "boom")).result =
        Except.error (CMError.apiError "boom") ∧
      (callAPI exStDup "T" (Except.error "boom")).state.messages =
        collapseSystem exStDup.messages ∧
      (callAPI exStDup "T" (Except.error "boom")).apiCalled = true) :=
  ⟨by decide, c6_failure_keeps_collapsed_list exStDup "T" "boom" (by decide)⟩

/-- Claim C10: when the first message does not have role system, no
message is exempt: `trimHistory` runs the plain loop, which removes
messages from the front — whatever their role, including system messages
at positions greater than 0 — and stops exactly when the total estimated
tokens is within budget or the list is empty (the result is a suffix of
the original list). -/
theorem c10_trim_no_exemption (maxT : Nat) (m : Message)
    (rest : List Message) (h : ¬ m.role = Role.system) :
    trimHistory maxT (m :: rest) = trimLoop maxT (m :: rest) ∧
    (trimLoop maxT (m :: rest)).IsSuffix (m :: rest) ∧
    (getTotalTokens (trimLoop maxT (m :: rest)) ≤ maxT ∨
      trimLoop maxT (m :: rest) = []) := by
  refine ⟨?_, trimLoop_isSuffix maxT (m :: rest), trimLoop_budget maxT (m :: rest)⟩
  simp [trimHistory, h]

/-- Claim C2 names a behavior the code does not implement: `addMessage`
in the source performs no content validation, so `addMessage("")` and
`addMessage("   ")` throw nothing and each appends a message with the
empty (or blank) content; the repository test suite, by contrast, expects
both calls to throw `Message content cannot be empty.`.  This theorem
evaluates the source at the failing inputs. -/
theorem c2_empty_content_is_appended :
    (addMessage exSt0 "" Role.user "T0").messages =
      exSt0.messages ++
        [{ role := Role.user, content := "", timestamp := some "T0" }] ∧
    (addMessage exSt0 "   " Role.user "T1").messages =
      exSt0.messages ++
        [{ role := Role.user, content := "   ", timestamp := some "T1" }] := by
  decide

/-- Claim C3, as stated, is false: `setSystem` pushes the fresh system
message at the end of the list, so with a prior list `[system, user]` the
updated list is `[user, system]` — the unique system message sits at
position 1, not position 0. -/
theorem c3_counterexample :
    setSystem true [exSysA, exUserB] "P" =
      [exUserB, { role := Role.system, content := "P", timestamp := none }] ∧
    (setSystem true [exSysA, exUserB] "P").head?.map Message.role ≠
      some Role.system := by
  decide

/-- Claim C3 (amended): after a successful `setSystem` call on a state
with the system already configured (`systemSet = true`, which holds in
every state reachable after construction), the message list contains
exactly one message with role system — any previously installed system
message having been removed first — and that message is at the last
position of the list, not at position 0. -/
theorem c3_system_unique_at_end (msgs : List Message) (prompt : String) :
    (setSystem true msgs prompt).filter (fun m => isSystemMsg m) =
      [{ role := Role.system, content := prompt, timestamp := none }] ∧
    (setSystem true msgs prompt).getLast? =
      some { role := Role.system, content := prompt, timestamp := none } := by
  constructor
  · simp [setSystem, List.filter_append, List.filter_filter, isSystemMsg]
  · simp [setSystem]

/-- Claim C5: when the list holds at least one system message, the
duplicate-system collapse of `callAPI` keeps exactly the first system
message (the one-element `take` of the system sublist) and leaves the
subsequence of non-system messages unchanged. -/
theorem c5_collapse_keeps_first_system (msgs : List Message)
    (h : msgs.filter (fun m => isSystemMsg m) ≠ []) :
    (collapseSystem msgs).filter (fun m => isSystemMsg m) =
      (msgs.filter (fun m => isSystemMsg m)).take 1 ∧
    (collapseSystem msgs).filter (fun m => !isSystemMsg m) =
      msgs.filter (fun m => !isSystemMsg m) := by
  cases hf : msgs.filter (fun m => isSystemMsg m) with
  | nil => exact absurd hf h
  | cons s rest =>
    have hs : isSystemMsg s = true :=
      List.of_mem_filter (hf ▸ List.mem_cons_self s rest)
    cases rest with
    | nil =>
      unfold collapseSystem
      rw [hf]
      simp [hf]
    | cons s2 rest2 =>
      unfold collapseSystem
      rw [hf]
      simp [hs, List.filter_filter]

theorem c5_collapse_keeps_first_system_witness :
    exDupList.filter (fun m => isSystemMsg m) ≠ [] ∧
    ((collapseSystem exDupList).filter (fun m => isSystemMsg m) =
      (exDupList.filter (fun m => isSystemMsg m)).take 1 ∧
      (collapseSystem exDupList).filter (fun m => !isSystemMsg m) =
        exDupList.filter (fun m => !isSystemMsg m)) :=
  ⟨by decide, c5_collapse_keeps_first_system exDupList (by decide)⟩

theorem c10_trim_no_exemption_witness :
    (¬ exUserAB.role = Role.system ∧
      (trimHistory 1 [exUserAB, exSysCD, exUserE] =
        trimLoop 1 [exUserAB, exSysCD, exUserE] ∧
        (trimLoop 1 [exUserAB, exSysCD, exUserE]).IsSuffix
          [exUserAB, exSysCD, exUserE] ∧
        (getTotalTokens (trimLoop 1 [exUserAB, exSysCD, exUserE]) ≤ 1 ∨
          trimLoop 1 [exUserAB, exSysCD, exUserE] = []))) ∧
    trimHistory 1 [exUserAB, exSysCD, exUserE] = [exUserE] :=
  ⟨⟨by decide, c10_trim_no_exemption 1 exUserAB [exSysCD, exUserE] (by decide)⟩,
    by decide⟩

theorem jsMaxList_map_some : ∀ (t : List Int) (n : Int),
    jsMaxList ((n :: t).map some) = some (t.foldl max n) := by
  intro t
  induction t with
  | nil => intro n; rfl
  | cons b t ih =>
    intro n
    simpa [jsMaxList, List.foldl_cons] using ih (max n b)

/-- Claim C7: `generateConversationId` parses every existing
`conversationId` as an integer; when they all parse, the result is the
string of the maximum (0 when the record has no conversations) plus one —
`"3"` on ids `["1", "2"]` and `"1"` on an empty record (the witness
instantiates both). -/
theorem c7_generateConversationId (u : UserRecord) (ns : List Int)
    (h : u.conversations.map (fun c => jsParseInt c.conversationId) =
      ns.map some) :
    generateConversationId u = toString (specMaxIds ns + 1) := by
  cases hc : u.conversations with
  | nil =>
    have hmap : ns.map some = [] := by
      rw [← h, hc]
      rfl
    have hns : ns = [] := List.map_eq_nil_iff.mp hmap
    subst hns
    simp [generateConversationId, hc, specMaxIds]
  | cons c cs =>
    rw [hc] at h
    cases ns with
    | nil => simp at h
    | cons n t =>
      unfold generateConversationId
      rw [hc, if_pos (by simp), h, jsMaxList_map_some]
      rfl

theorem c7_generateConversationId_witness :
    (exRec12.conversations.map (fun c => jsParseInt c.conversationId) =
        [(1 : Int), 2].map some ∧
      generateConversationId exRec12 = "3") ∧
    (exRecEmpty.conversations.map (fun c => jsParseInt c.conversationId) =
        ([] : List Int).map some ∧
      generateConversationId exRecEmpty = "1") :=
  ⟨⟨by decide,
    (c7_generateConversationId exRec12 [1, 2] (by decide)).trans (by decide)⟩,
   ⟨by decide,
    (c7_generateConversationId exRecEmpty [] (by decide)).trans (by decide)⟩⟩

theorem roleOfString_roleToString (r : Role) :
    roleOfString (roleToString r) = some r := by
  cases r <;> rfl

theorem decodeMessage_encodeMessage (m : Message) :
    decodeMessage (encodeMessage m) = some m := by
  obtain ⟨role, content, timestamp⟩ := m
  cases role <;> cases timestamp <;> rfl

theorem decodeList_encode {α : Type} (f : Json → Option α) (enc : α → Json)
    (hf : ∀ a, f (enc a) = some a) :
    ∀ l : List α, decodeList f (l.map enc) = some l := by
  intro l
  induction l with
  | nil => rfl
  | cons a t ih => simp [decodeList, hf, ih]

theorem decodeConversation_encodeConversation (c : Conversation) :
    decodeConversation (encodeConversation c) = some c := by
  obtain ⟨cid, name, ts, msgs⟩ := c
  have hmsgs :=
    decodeList_encode decodeMessage encodeMessage decodeMessage_encodeMessage msgs
  simp [encodeConversation, decodeConversation, jGet, asStr, hmsgs]

theorem decodeUserRecord_encodeUserRecord (u : UserRecord) :
    decodeUserRecord (encodeUserRecord u) = some u := by
  obtain ⟨uid, total, convos⟩ := u
  have hconvos :=
    decodeList_encode decodeConversation encodeConversation
      decodeConversation_encodeConversation convos
  simp [encodeUserRecord, decodeUserRecord, jGet, asStr, asNum, hconvos]

/-- Claim C8: saving a user record and loading it back through the
persisted JSON document yields the record itself — in particular the same
conversation count and, for each conversation, the same sequence of
message roles and contents. -/
theorem c8_save_load_roundtrip (store : Store) (userId : String)
    (rec : UserRecord) :
    loadUserData (saveUserData store userId rec) userId = rec ∧
    (loadUserData (saveUserData store userId rec) userId).conversations.length =
      rec.conversations.length ∧
    (loadUserData (saveUserData store userId rec) userId).conversations.map
        (fun c => c.messages.map (fun m => (m.role, m.content))) =
      rec.conversations.map
        (fun c => c.messages.map (fun m => (m.role, m.content))) := by
  have h : loadUserData (saveUserData store userId rec) userId = rec := by
    unfold loadUserData saveUserData
    rw [if_pos rfl]
    simp [decodeUserRecord_encodeUserRecord]
  exact ⟨h, by rw [h], by rw [h]⟩

theorem beq_space_eq_false {c : Char} (h : isJsWhitespace c = false) :
    (c == ' ') = false := by
  cases hbe : (c == ' ') with
  | false => rfl
  | true =>
    have hc : c = ' ' := eq_of_beq hbe
    subst hc
    exact absurd h (by decide)

theorem endsNonWSB_tail {x : Char} {r : List Char}
    (h : endsNonWSB (x :: r) = true) : r = [] ∨ endsNonWSB r = true := by
  cases r with
  | nil => exact Or.inl rfl
  | cons y r2 => exact Or.inr (by simpa [endsNonWSB] using h)

theorem split_collapse_words : ∀ cs : List Char,
    ((cs = [] ∨ endsNonWSB cs = true) → ∀ cur,
      (splitOnSpaceAux cur (collapseWSAux false cs)).length =
        specCountWordsAux true cs + 1) ∧
    (endsNonWSB cs = true → ∀ cur,
      (splitOnSpaceAux cur (collapseWSAux true cs)).length =
        specCountWordsAux false cs) := by
  intro cs
  induction cs with
  | nil =>
    refine ⟨fun _ cur => rfl, fun h => ?_⟩
    simp [endsNonWSB] at h
  | cons c t ih =>
    obtain ⟨ihA, ihB⟩ := ih
    cases hw : isJsWhitespace c with
    | true =>
      have hnext : endsNonWSB (c :: t) = true → endsNonWSB t = true := by
        intro hends
        rcases endsNonWSB_tail hends with h0 | h0
        · subst h0
          simp [endsNonWSB, hw] at hends
        · exact h0
      constructor
      · intro h cur
        have hends : endsNonWSB (c :: t) = true := by
          rcases h with h | h
          · exact absurd h (List.cons_ne_nil c t)
          · exact h
        have hendt := hnext hends
        simp only [collapseWSAux, specCountWordsAux, hw, if_true,
          splitOnSpaceAux, beq_self_eq_true, List.length_cons]
        rw [ihB hendt []]
      · intro hends cur
        have hendt := hnext hends
        simp only [collapseWSAux, specCountWordsAux, hw, if_true]
        exact ihB hendt cur
    | false =>
      have hsp := beq_space_eq_false hw
      have htOr : endsNonWSB (c :: t) = true → t = [] ∨ endsNonWSB t = true :=
        fun hends => endsNonWSB_tail hends
      constructor
      · intro h cur
        have hends : endsNonWSB (c :: t) = true := by
          rcases h with h | h
          · exact absurd h (List.cons_ne_nil c t)
          · exact h
        simp only [collapseWSAux, specCountWordsAux, hw, if_false,
          Bool.false_eq_true, splitOnSpaceAux, hsp]
        rw [ihA (htOr hends) (c :: cur)]
        simp
      · intro hends cur
        simp only [collapseWSAux, specCountWordsAux, hw, if_false,
          Bool.false_eq_true, splitOnSpaceAux, hsp]
        rw [ihA (htOr hends) (c :: cur)]
        omega

theorem getTokenCount_eq_specWordCount (s : String)
    (hh : headNonWSB s.data = true) (he : endsNonWSB s.data = true) :
    getTokenCount s = specWordCount s := by
  unfold getTokenCount jsSplitWS specWordCount
  cases hd : s.data with
  | nil =>
    rw [hd] at he
    simp [endsNonWSB] at he
  | cons c t =>
    rw [hd] at hh he
    have hw : isJsWhitespace c = false := by
      simpa [headNonWSB] using hh
    have hsp := beq_space_eq_false hw
    obtain ⟨hA, _⟩ := split_collapse_words t
    simp only [collapseWSAux, specCountWordsAux, hw, if_false,
      Bool.false_eq_true, splitOnSpaceAux, hsp]
    rw [hA (endsNonWSB_tail he) (c :: [])]
    omega

theorem foldl_add_tokens : ∀ (l : List Message) (n : Nat),
    l.foldl (fun count msg => count + getTokenCount msg.content) n =
      n + (l.map (fun m => getTokenCount m.content)).sum := by
  intro l
  induction l with
  | nil => intro n; simp
  | cons m t ih =>
    intro n
    simp only [List.foldl_cons, List.map_cons, List.sum_cons]
    rw [ih]
    omega

/-- Claim C9 (amended): `getTokenCount(text)` returns the length of
`text.split(/\s+/)`, which equals the number of whitespace-delimited
words exactly when the text is nonempty and neither starts nor ends with
whitespace (the regex split otherwise yields empty leading or trailing
fields, and yields `[""]` on the empty string); in particular
`getTokenCount("This is a test") = 4`, and `getTotalTokens` is the sum of
the estimates over every message content, the system message included. -/
theorem c9_estimate_word_count :
    (∀ s : String, headNonWSB s.data = true → endsNonWSB s.data = true →
      getTokenCount s = specWordCount s) ∧
    getTokenCount "This is a test" = 4 ∧
    (∀ msgs : List Message,
      getTotalTokens msgs =
        (msgs.map (fun m => getTokenCount m.content)).sum) := by
  refine ⟨getTokenCount_eq_specWordCount, by decide, ?_⟩
  intro msgs
  unfold getTotalTokens
  rw [foldl_add_tokens msgs 0]
  omega

theorem c9_estimate_word_count_witness :
    headNonWSB "This is a test".data = true ∧
    endsNonWSB "This is a test".data = true ∧
    getTokenCount "This is a test" = specWordCount "This is a test" :=
  ⟨by decide, by decide,
    c9_estimate_word_count.1 "This is a test" (by decide) (by decide)⟩

/-- Claim C9, as stated, is false: `estimate("")` is
`"".split(/\s+/).length = 1`, but the empty string has 0
whitespace-delimited words. -/
theorem c9_counterexample :
    getTokenCount "" = 1 ∧ specWordCount "" = 0 ∧
    getTokenCount "" ≠ specWordCount "" := by
  decide

end ConvMgr
